import Mathlib

/-!
Shallow embedding of the maven command wrapper (pkg/maven/maven.go) and the
generated nexusUpload command registration (cmd/nexusUpload_generated.go).

Strings are modelled by Lean `String`, Go errors by `Except String`, the
injected process runner and the file system by explicit oracle structures.
-/

set_option maxRecDepth 4000

/-! ### String helpers mirroring the Go strings package -/

/-- Mirrors `strings.HasPrefix` at the character-list level:
`startsWithChars pat s` is true when `pat` is an initial segment of `s`. -/
def startsWithChars : List Char → List Char → Bool
  | [], _ => true
  | _ :: _, [] => false
  | p :: ps, c :: cs => p == c && startsWithChars ps cs

/-- Go `strings.HasPrefix s pat`. -/
def strStartsWith (s pat : String) : Bool :=
  startsWithChars pat.data s.data

/-- Helper for `strContains`: does `pat` occur in the character list? -/
def containsChars (pat : List Char) : List Char → Bool
  | [] => startsWithChars pat []
  | c :: cs => startsWithChars pat (c :: cs) || containsChars pat cs

/-- Go `strings.Contains s pat`. -/
def strContains (s pat : String) : Bool :=
  containsChars pat.data s.data

/-! ### Go `path.Clean` and `path.Dir` -/

/-- Split a character list on the slash character. -/
def splitSlashAux : List Char → List Char → List (List Char)
  | cur, [] => [cur.reverse]
  | cur, c :: cs => if c = '/' then cur.reverse :: splitSlashAux [] cs else splitSlashAux (c :: cur) cs

/-- Is the path rooted, that is, does it start with a slash? -/
def rootedChars : List Char → Bool
  | '/' :: _ => true
  | _ => false

/-- The element-processing loop of Go `path.Clean`: the first list is the stack of
output elements (most recent first), the second the remaining input elements. -/
def cleanLoop (rooted : Bool) : List (List Char) → List (List Char) → List (List Char)
  | stack, [] => stack
  | stack, e :: rest =>
    if e = [] ∨ e = ['.'] then cleanLoop rooted stack rest
    else if e = ['.', '.'] then
      match stack with
      | [] => if rooted then cleanLoop rooted [] rest else cleanLoop rooted [['.', '.']] rest
      | top :: stail =>
        if top = ['.', '.'] then cleanLoop rooted (e :: stack) rest else cleanLoop rooted stail rest
    else cleanLoop rooted (e :: stack) rest

/-- Join path elements with slashes. -/
def joinSlash : List (List Char) → List Char
  | [] => []
  | [e] => e
  | e :: es => e ++ '/' :: joinSlash es

/-- Go `path.Clean` on character lists. -/
def cleanChars (p : List Char) : List Char :=
  if p = [] then ['.']
  else
    let rooted := rootedChars p
    let elems := (cleanLoop rooted [] (splitSlashAux [] p)).reverse
    let out := joinSlash elems
    if rooted then '/' :: out
    else if out = [] then ['.'] else out

/-- Go `path.Clean`. -/
def pathClean (p : String) : String :=
  String.mk (cleanChars p.data)

/-- Go `path.Dir`: everything up to and including the final slash, cleaned. -/
def pathDir (p : String) : String :=
  String.mk (cleanChars ((p.data.reverse.dropWhile (fun c => !(c == '/'))).reverse))

/-- The effect of `os.Chdir target` on a current working directory, for lexical
paths: a rooted target replaces the working directory, a relative one is
resolved against it; the kernel normalises the result. -/
def resolvePath (cwd target : String) : String :=
  if strStartsWith target "/" then pathClean target
  else pathClean (cwd ++ "/" ++ target)

/-! ### Data model of pkg/maven/maven.go -/

deriving instance DecidableEq for Except

/-- `ExecuteOptions` from maven.go; field names follow the Go struct, Go zero
values are the defaults. -/
structure ExecuteOptions where
  PomPath : String := ""
  ProjectSettingsFile : String := ""
  GlobalSettingsFile : String := ""
  M2Path : String := ""
  Goals : List String := []
  Defines : List String := []
  Flags : List String := []
  LogSuccessfulMavenTransfers : Bool := false
  ReturnStdout : Bool := false

deriving DecidableEq

/-- `EvaluateOptions` from maven.go. -/
structure EvaluateOptions where
  PomPath : String := ""
  ProjectSettingsFile : String := ""
  GlobalSettingsFile : String := ""
  M2Path : String := ""

deriving DecidableEq

/-- The part of the injected `mavenUtils` interface that the pure parameter
construction uses: `FileExists` (whose error the code discards) and
`DownloadFile` (which may fail). -/
structure Utils where
  fileExists : String → Bool
  downloadFile : String → String → Except String Unit

/-- The injected `mavenExecRunner` behaviour for one `RunExecutable` call: the
bytes the spawned process writes to the configured stdout writer, and the
error result of the call. -/
structure Runner where
  stdout : String
  result : Except String Unit

/-- `mavenExecutable` constant from maven.go. -/
def mavenExecutable : String := "mvn"

/-- `downloadSettingsFromURL` from maven.go: skip the download when the target
file already exists (the `FileExists` error is discarded), otherwise download;
on success return the download that happened as a `(url, filename)` event. -/
def downloadSettingsFromURL (url filename : String) (utils : Utils) :
    Except String (List (String × String)) :=
  if utils.fileExists filename then Except.ok []
  else
    match utils.downloadFile url filename with
    | Except.error e =>
      Except.error ("failed to download maven settings from URL " ++ url ++ " to file " ++ filename ++ ": " ++ e)
    | Except.ok _ => Except.ok [(url, filename)]

/-- `downloadSettingsIfURL` from maven.go: an option starting with `http:` or
`https:` is downloaded to the fixed file and replaced by that file name; any
other option is returned unchanged with no download. -/
def downloadSettingsIfURL (settingsFileOption settingsFile : String) (utils : Utils) :
    Except String (String × List (String × String)) :=
  if strStartsWith settingsFileOption "http:" || strStartsWith settingsFileOption "https:" then
    match downloadSettingsFromURL settingsFileOption settingsFile utils with
    | Except.error e => Except.error e
    | Except.ok evs => Except.ok (settingsFile, evs)
  else Except.ok (settingsFileOption, [])

/-- The two symmetric settings-file blocks at the top of
`getParametersFromOptions`: an empty option contributes nothing, a non-empty
one contributes the flag followed by the (possibly localised) file name. -/
def settingsParams (settingsFileOption flagName settingsFile : String) (utils : Utils) :
    Except String (List String × List (String × String)) :=
  if settingsFileOption = "" then Except.ok ([], [])
  else
    match downloadSettingsIfURL settingsFileOption settingsFile utils with
    | Except.error e => Except.error e
    | Except.ok (name, evs) => Except.ok ([flagName, name], evs)

/-- The transfer-listener suppression define appended when
`LogSuccessfulMavenTransfers` is false. -/
def slf4jDefine : String :=
  "-Dorg.slf4j.simpleLogger.log.org.apache.maven.cli.transfer.Slf4jMavenTransferListener=warn"

/-- `getParametersFromOptions` from maven.go, also reporting the downloads that
were performed while localising settings files. The Go `nil` checks on `Flags`
and `Defines` are the identity on the result, since appending an absent slice
appends nothing. -/
def getParametersFromOptions (options : ExecuteOptions) (utils : Utils) :
    Except String (List String × List (String × String)) :=
  match settingsParams options.GlobalSettingsFile "--global-settings" ".pipeline/mavenGlobalSettings.xml" utils with
  | Except.error e => Except.error e
  | Except.ok (g, gEvs) =>
    match settingsParams options.ProjectSettingsFile "--settings" ".pipeline/mavenProjectSettings.xml" utils with
    | Except.error e => Except.error e
    | Except.ok (p, pEvs) =>
      Except.ok
        (g ++ p
          ++ (if options.M2Path ≠ "" then ["-Dmaven.repo.local=" ++ options.M2Path] else [])
          ++ (if options.PomPath ≠ "" then ["--file", options.PomPath] else [])
          ++ options.Flags
          ++ options.Defines
          ++ (if !options.LogSuccessfulMavenTransfers then [slf4jDefine] else [])
          ++ ["--batch-mode"]
          ++ options.Goals,
         gEvs ++ pEvs)

/-- `evaluateStdOut` from maven.go: when `ReturnStdout` is set, a fresh empty
buffer is attached to the stdout writer next to the log writer; otherwise only
the log writer is used and no buffer exists. -/
def evaluateStdOut (options : ExecuteOptions) : Option String × Bool :=
  if options.ReturnStdout then (some "", true) else (none, false)

/-- The observable outcome of `Execute`: its Go return value, the
`RunExecutable` invocations made on the runner, the bytes that reached the log
writer, and the settings downloads performed. -/
structure ExecResult where
  result : Except String String
  runCalls : List (String × List String)
  logOutput : String
  downloads : List (String × String)

deriving DecidableEq

/-- `Execute` from maven.go. The runner process writes its stdout bytes to the
configured writer, which always includes the log writer and includes the
buffer exactly when `ReturnStdout` is set. -/
def Execute (options : ExecuteOptions) (runner : Runner) (utils : Utils) : ExecResult :=
  let stdOutBuf := (evaluateStdOut options).1
  match getParametersFromOptions options utils with
  | Except.error e =>
    { result := Except.error ("failed to construct parameters from options: " ++ e),
      runCalls := [], logOutput := "", downloads := [] }
  | Except.ok (parameters, downloads) =>
    let logOutput := runner.stdout
    let stdOutBuf := stdOutBuf.map (fun b => b ++ runner.stdout)
    match runner.result with
    | Except.error e =>
      { result := Except.error ("failed to run executable: " ++ e),
        runCalls := [(mavenExecutable, parameters)], logOutput := logOutput, downloads := downloads }
    | Except.ok _ =>
      match stdOutBuf with
      | none =>
        { result := Except.ok "",
          runCalls := [(mavenExecutable, parameters)], logOutput := logOutput, downloads := downloads }
      | some buf =>
        { result := Except.ok buf,
          runCalls := [(mavenExecutable, parameters)], logOutput := logOutput, downloads := downloads }

/-- The `ExecuteOptions` value that `Evaluate` constructs for the
maven-help-plugin evaluate goal. -/
def evaluateExecuteOptions (options : EvaluateOptions) (expression : String) : ExecuteOptions :=
  { PomPath := options.PomPath,
    M2Path := options.M2Path,
    ProjectSettingsFile := options.ProjectSettingsFile,
    GlobalSettingsFile := options.GlobalSettingsFile,
    Goals := ["org.apache.maven.plugins:maven-help-plugin:3.1.0:evaluate"],
    Defines := ["-Dexpression=" ++ expression, "-DforceStdout", "-q"],
    Flags := [],
    LogSuccessfulMavenTransfers := false,
    ReturnStdout := true }

/-- The prefix of the captured output that `Evaluate` treats as failure. -/
def nullObjectMessage : String := "null object or invalid expression"

/-- The postprocessing `Evaluate` applies to the value returned by `Execute`. -/
def evaluateResult (pomPath expression : String) (value : Except String String) :
    Except String String :=
  match value with
  | Except.error e => Except.error e
  | Except.ok v =>
    if strStartsWith v nullObjectMessage then
      Except.error ("expression " ++ expression ++ " in file " ++ pomPath ++ " could not be resolved")
    else Except.ok v

/-- `Evaluate` from maven.go. -/
def Evaluate (options : EvaluateOptions) (expression : String) (runner : Runner) (utils : Utils) :
    Except String String :=
  evaluateResult options.PomPath expression
    (Execute (evaluateExecuteOptions options expression) runner utils).result

/-- The `-D` defines that `InstallFile` builds for a non-empty pom file. -/
def installFileDefines (file pomFile : String) : List String :=
  (if file.length > 0 then
    ["-Dfile=" ++ file]
      ++ (if strContains file ".jar" then ["-Dpackaging=jar"] else [])
      ++ (if strContains file "-classes" then ["-Dclassifier=classes"] else [])
  else ["-Dfile=" ++ pomFile])
  ++ ["-DpomFile=" ++ pomFile]

/-- The `ExecuteOptions` that `InstallFile` passes to `Execute`. -/
def installFileOptions (file pomFile m2Path : String) : ExecuteOptions :=
  { Goals := ["install:install-file"],
    Defines := installFileDefines file pomFile,
    PomPath := pomFile,
    M2Path := m2Path }

/-- The observable outcome of `InstallFile`. -/
structure InstallResult where
  result : Except String Unit
  runCalls : List (String × List String)

deriving DecidableEq

/-- How `InstallFile` maps the result of its `Execute` call to its own. -/
def installFileResult : Except String String → Except String Unit
  | Except.error e => Except.error ("failed to install maven artifacts: " ++ e)
  | Except.ok _ => Except.ok ()

/-- `InstallFile` from maven.go: an empty pom file is rejected before any
runner interaction. -/
def InstallFile (file pomFile m2Path : String) (runner : Runner) (utils : Utils) : InstallResult :=
  if pomFile.length = 0 then { result := Except.error "pomFile must not be empty", runCalls := [] }
  else
    let r := Execute (installFileOptions file pomFile m2Path) runner utils
    { result := installFileResult r.result, runCalls := r.runCalls }

/-- `jarFile` from maven.go. -/
def jarFile (finalName : String) : String := "target/" ++ finalName ++ ".jar"

/-- `classesJarFile` from maven.go. -/
def classesJarFile (finalName : String) : String := "target/" ++ finalName ++ "-classes.jar"

/-- `warFile` from maven.go. -/
def warFile (finalName : String) : String := "target/" ++ finalName ++ ".war"

/-- The `ExecuteOptions` built by `flattenPom`. -/
def flattenPomOptions : ExecuteOptions :=
  { Goals := ["flatten:flatten"],
    Defines := ["-Dflatten.mode=resolveCiFriendliesOnly"],
    PomPath := "pom.xml" }

/-! ### State-threaded model for the install-artifacts workflow

`doInstallMavenArtifacts` interleaves working-directory changes, runner
invocations and file-system queries. A `World` fixes the environment (the glob
result, per-directory file existence, the behaviour of the i-th runner
invocation), a `Sys` is the evolving process state, and the observable
behaviour is recorded as a trace of `Act`s. -/

/-- An observable action: a `os.Chdir` call or a `RunExecutable` call. -/
inductive Act where
  | chdir (dir : String)
  | run (exe : String) (params : List String)

deriving DecidableEq

/-- The environment of one `doInstallMavenArtifacts` run. -/
structure World where
  pomGlob : Except String (List String)
  getwdErr : Option String
  chdirErr : String → String → Option String
  fileExistsAt : String → String → Bool
  downloadAt : String → String → String → Except String Unit
  oracle : Nat → Runner

/-- The evolving process state: working directory, number of runner
invocations so far, and the action trace. -/
structure Sys where
  cwd : String
  calls : Nat
  trace : List Act

deriving DecidableEq

/-- The `Utils` view of the world from a given working directory. -/
def utilsAt (w : World) (cwd : String) : Utils :=
  { fileExists := w.fileExistsAt cwd, downloadFile := w.downloadAt cwd }

/-- One `Execute` call inside the workflow: the runner behaviour for the call
is drawn from the oracle at the current invocation count, and the run calls it
makes are appended to the trace. -/
def ExecuteS (options : ExecuteOptions) (w : World) (s : Sys) : Except String String × Sys :=
  let r := Execute options (w.oracle s.calls) (utilsAt w s.cwd)
  (r.result,
   { s with calls := s.calls + r.runCalls.length,
            trace := s.trace ++ r.runCalls.map (fun c => Act.run c.1 c.2) })

/-- `Evaluate` inside the workflow. -/
def EvaluateS (options : EvaluateOptions) (expression : String) (w : World) (s : Sys) :
    Except String String × Sys :=
  match ExecuteS (evaluateExecuteOptions options expression) w s with
  | (value, s₁) => (evaluateResult options.PomPath expression value, s₁)

/-- `InstallFile` inside the workflow. -/
def InstallFileS (file pomFile m2Path : String) (w : World) (s : Sys) :
    Except String Unit × Sys :=
  if pomFile.length = 0 then (Except.error "pomFile must not be empty", s)
  else
    match ExecuteS (installFileOptions file pomFile m2Path) w s with
    | (value, s₁) => (installFileResult value, s₁)

/-- `flattenPom` inside the workflow. -/
def flattenPomS (w : World) (s : Sys) : Except String Unit × Sys :=
  match ExecuteS flattenPomOptions w s with
  | (Except.error e, s₁) => (Except.error e, s₁)
  | (Except.ok _, s₁) => (Except.ok (), s₁)

/-- `installJarWarArtifacts` from maven.go: evaluate the final name; when it is
empty install only the pom, otherwise install the jar, war and classes jar
exactly when the corresponding file exists in the current directory. -/
def installJarWarArtifactsS (options : EvaluateOptions) (w : World) (s : Sys) :
    Except String Unit × Sys :=
  match EvaluateS options "project.build.finalName" w s with
  | (Except.error e, s₁) => (Except.error e, s₁)
  | (Except.ok finalName, s₁) =>
    if finalName = "" then
      InstallFileS "" "pom.xml" options.M2Path w s₁
    else
      match (if w.fileExistsAt s₁.cwd (jarFile finalName) then
               InstallFileS (jarFile finalName) "pom.xml" options.M2Path w s₁
             else (Except.ok (), s₁)) with
      | (Except.error e, s₂) => (Except.error e, s₂)
      | (Except.ok _, s₂) =>
        match (if w.fileExistsAt s₁.cwd (warFile finalName) then
                 InstallFileS (warFile finalName) "pom.xml" options.M2Path w s₂
               else (Except.ok (), s₂)) with
        | (Except.error e, s₃) => (Except.error e, s₃)
        | (Except.ok _, s₃) =>
          if w.fileExistsAt s₁.cwd (classesJarFile finalName) then
            InstallFileS (classesJarFile finalName) "pom.xml" options.M2Path w s₃
          else (Except.ok (), s₃)

/-- The body of the module loop in `doInstallMavenArtifacts`: change into the
directory of the pom, evaluate the packaging, install either the pom alone or
the jar/war artifacts, and change back to the remembered directory. -/
def processModule (options : EvaluateOptions) (oldWd pomFile : String) (w : World) (s : Sys) :
    Except String Unit × Sys :=
  match w.chdirErr s.cwd (pathDir pomFile) with
  | some e => (Except.error e, s)
  | none =>
    match EvaluateS options "project.packaging" w
        { s with cwd := resolvePath s.cwd (pathDir pomFile),
                 trace := s.trace ++ [Act.chdir (pathDir pomFile)] } with
    | (Except.error e, s₂) => (Except.error e, s₂)
    | (Except.ok packaging, s₂) =>
      match (if packaging = "pom" then InstallFileS "" "pom.xml" options.M2Path w s₂
             else installJarWarArtifactsS options w s₂) with
      | (Except.error e, s₃) => (Except.error e, s₃)
      | (Except.ok _, s₃) =>
        match w.chdirErr s₃.cwd oldWd with
        | some e => (Except.error e, s₃)
        | none =>
          (Except.ok (),
           { s₃ with cwd := resolvePath s₃.cwd oldWd,
                     trace := s₃.trace ++ [Act.chdir oldWd] })

/-- The module loop of `doInstallMavenArtifacts`, over the glob result. -/
def installLoop (options : EvaluateOptions) (oldWd : String) (pomFiles : List String)
    (w : World) (s : Sys) : Except String Unit × Sys :=
  match pomFiles with
  | [] => (Except.ok (), s)
  | pomFile :: rest =>
    match processModule options oldWd pomFile w s with
    | (Except.error e, s₁) => (Except.error e, s₁)
    | (Except.ok _, s₁) => installLoop options oldWd rest w s₁

/-- `doInstallMavenArtifacts` from maven.go: flatten the pom, glob for
`**/pom.xml` (the glob result lives in the world), remember the working
directory, fix the pom path to `pom.xml`, and process each module. -/
def doInstallMavenArtifacts (options : EvaluateOptions) (w : World) (s : Sys) :
    Except String Unit × Sys :=
  match flattenPomS w s with
  | (Except.error e, s₁) => (Except.error e, s₁)
  | (Except.ok _, s₁) =>
    match w.pomGlob with
    | Except.error e => (Except.error e, s₁)
    | Except.ok pomFiles =>
      match w.getwdErr with
      | some e => (Except.error e, s₁)
      | none =>
        installLoop { options with PomPath := "pom.xml" } s₁.cwd pomFiles w s₁

/-! ### Data model of cmd/nexusUpload_generated.go -/

/-- `nexusUploadOptions` from nexusUpload_generated.go. -/
structure nexusUploadOptions where
  Version : String := ""
  Url : String := ""
  Repository : String := ""
  GroupID : String := ""
  ArtifactID : String := ""
  GlobalSettingsFile : String := ""
  M2Path : String := ""
  AdditionalClassifiers : String := ""
  User : String := ""
  Password : String := ""

deriving DecidableEq

/-- One `cmd.Flags().StringVar` registration: flag name, default value as a
function of the process environment, help text, and the binding into the
options struct. -/
structure NexusFlag where
  name : String
  defaultValue : (String → String) → String
  usage : String
  assign : String → nexusUploadOptions → nexusUploadOptions

/-- `addNexusUploadFlags` from nexusUpload_generated.go, in registration
order. -/
def addNexusUploadFlags : List NexusFlag :=
  [{ name := "version", defaultValue := fun _ => "nexus3",
     usage := "The Nexus Repository Manager version. Currently supported are nexus2 and nexus3.",
     assign := fun v o => { o with Version := v } },
   { name := "url", defaultValue := fun env => env "PIPER_url",
     usage := "URL of the nexus. The scheme part of the URL will not be considered, because only http is supported.",
     assign := fun v o => { o with Url := v } },
   { name := "repository", defaultValue := fun env => env "PIPER_repository",
     usage := "Name of the nexus repository.",
     assign := fun v o => { o with Repository := v } },
   { name := "groupId", defaultValue := fun env => env "PIPER_groupId",
     usage := "Group ID of the artifacts. Only used in MTA projects, ignored for Maven.",
     assign := fun v o => { o with GroupID := v } },
   { name := "artifactId", defaultValue := fun env => env "PIPER_artifactId",
     usage := "The artifact ID used for both the .mtar and mta.yaml files deployed for MTA projects, ignored for Maven.",
     assign := fun v o => { o with ArtifactID := v } },
   { name := "globalSettingsFile", defaultValue := fun env => env "PIPER_globalSettingsFile",
     usage := "Path to the mvn settings file that should be used as global settings file.",
     assign := fun v o => { o with GlobalSettingsFile := v } },
   { name := "m2Path", defaultValue := fun env => env "PIPER_m2Path",
     usage := "The path to the local .m2 directory, only used for Maven projects.",
     assign := fun v o => { o with M2Path := v } },
   { name := "additionalClassifiers", defaultValue := fun env => env "PIPER_additionalClassifiers",
     usage := "List of additional classifiers that should be deployed to nexus. Each item is a map of a type and a classifier name.",
     assign := fun v o => { o with AdditionalClassifiers := v } },
   { name := "user", defaultValue := fun env => env "PIPER_user",
     usage := "User",
     assign := fun v o => { o with User := v } },
   { name := "password", defaultValue := fun env => env "PIPER_password",
     usage := "Password",
     assign := fun v o => { o with Password := v } }]

/-- The `MarkFlagRequired` calls of `addNexusUploadFlags`, in order. -/
def nexusUploadRequiredFlags : List String := ["url", "repository"]

/-! ### Derived parameter lists and concrete environments used by the theorems -/

/-- The parameter order stated by the specification, with the settings file
names already localised. -/
def mavenParametersSpec (options : ExecuteOptions) (globalSettings projectSettings : String) :
    List String :=
  (if options.GlobalSettingsFile ≠ "" then ["--global-settings", globalSettings] else [])
  ++ (if options.ProjectSettingsFile ≠ "" then ["--settings", projectSettings] else [])
  ++ (if options.M2Path ≠ "" then ["-Dmaven.repo.local=" ++ options.M2Path] else [])
  ++ (if options.PomPath ≠ "" then ["--file", options.PomPath] else [])
  ++ options.Flags
  ++ options.Defines
  ++ (if options.LogSuccessfulMavenTransfers = false then [slf4jDefine] else [])
  ++ ["--batch-mode"]
  ++ options.Goals

/-- A concrete utils oracle on which every download succeeds and no file
exists yet. -/
def plainUtils : Utils :=
  { fileExists := fun _ => false, downloadFile := fun _ _ => Except.ok () }

/-- A fully populated options value used by concrete witnesses. -/
def witnessOptions : ExecuteOptions :=
  { PomPath := "pom.xml",
    ProjectSettingsFile := "proj.xml",
    GlobalSettingsFile := "glob.xml",
    M2Path := ".m2",
    Goals := ["install"],
    Defines := ["-Da=1", "-Db=2"],
    Flags := ["-f1"],
    LogSuccessfulMavenTransfers := false,
    ReturnStdout := false }

/-- A runner oracle whose process prints `1.0` and succeeds. -/
def okRunner : Runner := { stdout := "1.0", result := Except.ok () }

/-- Options carrying only a goal, used by concrete witnesses. -/
def simpleOptions : ExecuteOptions := { Goals := ["install"] }

/-- Options with ReturnStdout set, used by concrete witnesses. -/
def stdoutOptions : ExecuteOptions := { Goals := ["install"], ReturnStdout := true }

/-- The Maven parameter list that an `InstallFile` call hands to the runner;
since install options carry no settings files, parameter construction cannot
fail or download anything. -/
def installRunParams (file pomFile m2Path : String) : List String :=
  (if m2Path ≠ "" then ["-Dmaven.repo.local=" ++ m2Path] else [])
  ++ (if pomFile ≠ "" then ["--file", pomFile] else [])
  ++ installFileDefines file pomFile
  ++ [slf4jDefine]
  ++ ["--batch-mode"]
  ++ ["install:install-file"]

/-- A utils oracle on which the fixed global settings file already exists. -/
def existsUtils : Utils :=
  { fileExists := fun p => p = ".pipeline/mavenGlobalSettings.xml",
    downloadFile := fun _ _ => Except.ok () }

/-- An environment with no modules, on which every call succeeds. -/
def wdWorld : World :=
  { pomGlob := Except.ok [],
    getwdErr := none,
    chdirErr := fun _ _ => none,
    fileExistsAt := fun _ _ => false,
    downloadAt := fun _ _ _ => Except.ok (),
    oracle := fun _ => { stdout := "", result := Except.ok () } }

/-- The canonical start state used by concrete witnesses. -/
def startSys : Sys := { cwd := "/prj", calls := 0, trace := [] }

/-- A single-module environment whose packaging evaluates to `jar`, whose
final name evaluates to the empty string, and in which the file
`target/.jar` exists in the module directory. -/
def cexWorld : World :=
  { pomGlob := Except.ok ["pom.xml"],
    getwdErr := none,
    chdirErr := fun _ _ => none,
    fileExistsAt := fun _ p => p = "target/.jar",
    downloadAt := fun _ _ _ => Except.ok (),
    oracle := fun n => if n = 1 then { stdout := "jar", result := Except.ok () }
      else { stdout := "", result := Except.ok () } }

/-- A single-module environment whose every evaluation prints `pom`. -/
def pomWorld : World :=
  { pomGlob := Except.ok ["pom.xml"],
    getwdErr := none,
    chdirErr := fun _ _ => none,
    fileExistsAt := fun _ _ => false,
    downloadAt := fun _ _ _ => Except.ok (),
    oracle := fun _ => { stdout := "pom", result := Except.ok () } }

/-! ### General helper lemmas -/

theorem strDataAppend (a b : String) : (a ++ b).data = a.data ++ b.data := by
  cases a
  cases b
  rfl

theorem strEmptyAppend (s : String) : "" ++ s = s := by
  cases s
  rfl

theorem strLengthZeroIff (s : String) : s.length = 0 ↔ s = "" := by
  cases s with
  | mk data =>
    constructor
    · intro h
      have hd : data = [] := List.length_eq_zero.mp h
      rw [hd]
    · intro h
      rw [h]
      rfl

/-! ### Claim C7: nexusUpload flag registration -/

/-- Claim C7: the generated nexusUpload command registers exactly the ten
flags version, url, repository, groupId, artifactId, globalSettingsFile,
m2Path, additionalClassifiers, user and password, each bound to the
same-named field of nexusUploadOptions, with default "nexus3" for version and
the corresponding PIPER environment variable for the others, and marks
exactly url and repository as required. -/
theorem nexusUpload_flag_registration :
    (addNexusUploadFlags.map (fun f => f.name) =
      ["version", "url", "repository", "groupId", "artifactId", "globalSettingsFile",
       "m2Path", "additionalClassifiers", "user", "password"]) ∧
    (∀ env : String → String,
      addNexusUploadFlags.map (fun f => f.defaultValue env) =
        ["nexus3", env "PIPER_url", env "PIPER_repository", env "PIPER_groupId",
         env "PIPER_artifactId", env "PIPER_globalSettingsFile", env "PIPER_m2Path",
         env "PIPER_additionalClassifiers", env "PIPER_user", env "PIPER_password"]) ∧
    (∀ (v : String) (o : nexusUploadOptions),
      addNexusUploadFlags.map (fun f => f.assign v o) =
        [{ o with Version := v }, { o with Url := v }, { o with Repository := v },
         { o with GroupID := v }, { o with ArtifactID := v },
         { o with GlobalSettingsFile := v }, { o with M2Path := v },
         { o with AdditionalClassifiers := v }, { o with User := v },
         { o with Password := v }]) ∧
    nexusUploadRequiredFlags = ["url", "repository"] :=
  ⟨rfl, fun _ => rfl, fun _ _ => rfl, rfl⟩

/-! ### Claim C5: the options Evaluate passes to Execute -/

/-- Claim C5: Evaluate runs Execute with the maven-help-plugin evaluate goal,
the defines -Dexpression=(expression), -DforceStdout and -q, ReturnStdout set
to true, and PomPath, M2Path, ProjectSettingsFile and GlobalSettingsFile
copied unchanged from the given EvaluateOptions. -/
theorem Evaluate_execute_options :
    ∀ (options : EvaluateOptions) (expression : String) (runner : Runner) (utils : Utils),
      Evaluate options expression runner utils =
        evaluateResult options.PomPath expression
          (Execute
            { PomPath := options.PomPath,
              ProjectSettingsFile := options.ProjectSettingsFile,
              GlobalSettingsFile := options.GlobalSettingsFile,
              M2Path := options.M2Path,
              Goals := ["org.apache.maven.plugins:maven-help-plugin:3.1.0:evaluate"],
              Defines := ["-Dexpression=" ++ expression, "-DforceStdout", "-q"],
              Flags := [],
              LogSuccessfulMavenTransfers := false,
              ReturnStdout := true } runner utils).result :=
  fun _ _ _ _ => rfl

/-! ### Claim C1: the order of the constructed Maven parameters -/

/-- Claim C1: for every ExecuteOptions value, getParametersFromOptions builds
the parameter list in exactly the specified order, where the settings file
names are the ones produced by downloadSettingsIfURL. -/
theorem getParametersFromOptions_order :
    ∀ (options : ExecuteOptions) (utils : Utils) (gName pName : String)
      (gEvs pEvs : List (String × String)),
      (options.GlobalSettingsFile ≠ "" →
        downloadSettingsIfURL options.GlobalSettingsFile ".pipeline/mavenGlobalSettings.xml" utils
          = Except.ok (gName, gEvs)) →
      (options.ProjectSettingsFile ≠ "" →
        downloadSettingsIfURL options.ProjectSettingsFile ".pipeline/mavenProjectSettings.xml" utils
          = Except.ok (pName, pEvs)) →
      ∃ evs, getParametersFromOptions options utils
        = Except.ok (mavenParametersSpec options gName pName, evs) := by
  intro options utils gName pName gEvs pEvs hg hp
  unfold getParametersFromOptions settingsParams mavenParametersSpec
  by_cases hG : options.GlobalSettingsFile = ""
  · by_cases hP : options.ProjectSettingsFile = ""
    · cases hL : options.LogSuccessfulMavenTransfers <;>
        simp [hG, hP, hL]
    · have hpeq := hp hP
      cases hL : options.LogSuccessfulMavenTransfers <;>
        simp [hG, hP, hL, hpeq]
  · have hgeq := hg hG
    by_cases hP : options.ProjectSettingsFile = ""
    · cases hL : options.LogSuccessfulMavenTransfers <;>
        simp [hG, hP, hL, hgeq]
    · have hpeq := hp hP
      cases hL : options.LogSuccessfulMavenTransfers <;>
        simp [hG, hP, hL, hgeq, hpeq]

/-- Witness for claim C1 at a concrete options value. -/
theorem getParametersFromOptions_order_witness :
    ∃ evs, getParametersFromOptions witnessOptions plainUtils
      = Except.ok (mavenParametersSpec witnessOptions "glob.xml" "proj.xml", evs) :=
  getParametersFromOptions_order witnessOptions plainUtils "glob.xml" "proj.xml" [] []
    (fun _ => by decide) (fun _ => by decide)

/-! ### Claim C4: Execute invokes the runner exactly once -/

/-- Claim C4: Execute invokes RunExecutable exactly once, with executable mvn
and exactly the parameters built by getParametersFromOptions, fails exactly
when parameter construction or the runner fails, and does not invoke the
runner at all when parameter construction fails. -/
theorem Execute_runner_invocation :
    ∀ (options : ExecuteOptions) (runner : Runner) (utils : Utils),
      (∀ e, getParametersFromOptions options utils = Except.error e →
        (Execute options runner utils).runCalls = [] ∧
        ∃ msg, (Execute options runner utils).result = Except.error msg) ∧
      (∀ parameters evs, getParametersFromOptions options utils = Except.ok (parameters, evs) →
        (Execute options runner utils).runCalls = [(mavenExecutable, parameters)] ∧
        ((∃ msg, (Execute options runner utils).result = Except.error msg) ↔
          ∃ msg, runner.result = Except.error msg)) := by
  intro options runner utils
  constructor
  · intro e he
    simp [Execute, he]
  · intro parameters evs hok
    cases hr : runner.result with
    | error msg =>
      cases hb : options.ReturnStdout <;>
        simp [Execute, hok, hr, evaluateStdOut, hb]
    | ok u =>
      cases hb : options.ReturnStdout <;>
        simp [Execute, hok, hr, evaluateStdOut, hb]

/-- Witness for claim C4 at a concrete input. -/
theorem Execute_runner_invocation_witness :
    (Execute simpleOptions okRunner plainUtils).runCalls
        = [(mavenExecutable, [slf4jDefine, "--batch-mode", "install"])] ∧
      ((∃ msg, (Execute simpleOptions okRunner plainUtils).result = Except.error msg) ↔
        ∃ msg, okRunner.result = Except.error msg) :=
  (Execute_runner_invocation simpleOptions okRunner plainUtils).2
    [slf4jDefine, "--batch-mode", "install"] [] (by decide)

/-! ### Claim C10: what Execute returns and logs on success -/

/-- Claim C10: when the runner succeeds, Execute returns the empty string if
ReturnStdout is unset, and returns exactly the bytes the runner wrote to its
stdout writer if it is set, in which case the same bytes also reach the log
writer. -/
theorem Execute_stdout_capture :
    ∀ (options : ExecuteOptions) (runner : Runner) (utils : Utils)
      (parameters : List String) (evs : List (String × String)),
      getParametersFromOptions options utils = Except.ok (parameters, evs) →
      runner.result = Except.ok () →
      ((options.ReturnStdout = false → (Execute options runner utils).result = Except.ok "") ∧
       (options.ReturnStdout = true →
         (Execute options runner utils).result = Except.ok runner.stdout ∧
         (Execute options runner utils).logOutput = runner.stdout)) := by
  intro options runner utils parameters evs hok hr
  constructor
  · intro hb
    simp [Execute, hok, hr, evaluateStdOut, hb]
  · intro hb
    simp [Execute, hok, hr, evaluateStdOut, hb, strEmptyAppend]

/-- Witness for claim C10 at a concrete input. -/
theorem Execute_stdout_capture_witness :
    (Execute stdoutOptions okRunner plainUtils).result = Except.ok okRunner.stdout ∧
      (Execute stdoutOptions okRunner plainUtils).logOutput = okRunner.stdout :=
  (Execute_stdout_capture stdoutOptions okRunner plainUtils
    [slf4jDefine, "--batch-mode", "install"] [] (by decide) (by decide)).2 rfl

/-! ### Claim C3: when Evaluate fails -/

/-- On success with ReturnStdout set, the value Execute returns is exactly
what the runner wrote to stdout. -/
theorem Execute_ok_stdout (options : ExecuteOptions) (runner : Runner) (utils : Utils)
    (v : String) (hret : options.ReturnStdout = true)
    (h : (Execute options runner utils).result = Except.ok v) : v = runner.stdout := by
  cases hp : getParametersFromOptions options utils with
  | error e =>
    simp [Execute, hp] at h
  | ok pr =>
    cases pr with
    | mk parameters evs =>
      cases hr : runner.result with
      | error msg => simp [Execute, hp, hr] at h
      | ok u =>
        simp [Execute, hp, hr, evaluateStdOut, hret, strEmptyAppend] at h
        exact h.symm

/-- Claim C3: Evaluate returns an error exactly when the underlying Execute
call fails or the captured standard output begins with the null-object
message; in every other case it returns the captured output unchanged. -/
theorem Evaluate_error_characterisation :
    ∀ (options : EvaluateOptions) (expression : String) (runner : Runner) (utils : Utils),
      ((∃ e, Evaluate options expression runner utils = Except.error e) ↔
        ((∃ e, (Execute (evaluateExecuteOptions options expression) runner utils).result
            = Except.error e) ∨
          strStartsWith runner.stdout nullObjectMessage = true)) ∧
      (∀ v,
        (Execute (evaluateExecuteOptions options expression) runner utils).result = Except.ok v →
        strStartsWith v nullObjectMessage = false →
        Evaluate options expression runner utils = Except.ok v) := by
  intro options expression runner utils
  constructor
  · cases hx : (Execute (evaluateExecuteOptions options expression) runner utils).result with
    | error e =>
      constructor
      · intro _
        exact Or.inl ⟨e, rfl⟩
      · intro _
        exact ⟨e, by simp [Evaluate, hx, evaluateResult]⟩
    | ok v =>
      have hv : v = runner.stdout := Execute_ok_stdout _ _ _ v rfl hx
      constructor
      · rintro ⟨e, he⟩
        simp only [Evaluate, hx, evaluateResult] at he
        by_cases hpref : strStartsWith v nullObjectMessage = true
        · exact Or.inr (hv ▸ hpref)
        · rw [if_neg hpref] at he
          exact absurd he (by simp)
      · intro hdisj
        rcases hdisj with hE | hpref
        · obtain ⟨e, he⟩ := hE
          exact absurd he (by simp)
        · have hp2 : strStartsWith v nullObjectMessage = true := by
            rw [hv]
            exact hpref
          refine ⟨"expression " ++ expression ++ " in file " ++ options.PomPath
            ++ " could not be resolved", ?_⟩
          simp only [Evaluate, hx, evaluateResult]
          rw [if_pos hp2]
  · intro v hx hpref
    simp only [Evaluate, hx, evaluateResult]
    rw [if_neg (by simp [hpref])]

/-- Witness for claim C3: on a successful run whose output is `1.0`, Evaluate
returns exactly that output. -/
theorem Evaluate_error_characterisation_witness :
    Evaluate {} "project.version" okRunner plainUtils = Except.ok "1.0" :=
  (Evaluate_error_characterisation {} "project.version" okRunner plainUtils).2
    "1.0" (by decide) (by decide)

/-! ### Claim C8: InstallFile -/

theorem strNeOfDataNe (a b : String) (h : a.data ≠ b.data) : a ≠ b :=
  fun e => h (congrArg String.data e)

theorem dfileNeDpackaging (s : String) : ("-Dfile=" ++ s) ≠ "-Dpackaging=jar" := by
  apply strNeOfDataNe
  rw [strDataAppend]
  rw [show ("-Dfile=" : String).data = ['-', 'D', 'f', 'i', 'l', 'e', '='] from rfl]
  rw [show ("-Dpackaging=jar" : String).data
    = ['-', 'D', 'p', 'a', 'c', 'k', 'a', 'g', 'i', 'n', 'g', '=', 'j', 'a', 'r'] from rfl]
  simp

theorem dfileNeDclassifier (s : String) : ("-Dfile=" ++ s) ≠ "-Dclassifier=classes" := by
  apply strNeOfDataNe
  rw [strDataAppend]
  rw [show ("-Dfile=" : String).data = ['-', 'D', 'f', 'i', 'l', 'e', '='] from rfl]
  rw [show ("-Dclassifier=classes" : String).data
    = ['-', 'D', 'c', 'l', 'a', 's', 's', 'i', 'f', 'i', 'e', 'r', '=', 'c', 'l', 'a', 's', 's', 'e', 's'] from rfl]
  simp

theorem dpomNeDpackaging (s : String) : ("-DpomFile=" ++ s) ≠ "-Dpackaging=jar" := by
  apply strNeOfDataNe
  rw [strDataAppend]
  rw [show ("-DpomFile=" : String).data = ['-', 'D', 'p', 'o', 'm', 'F', 'i', 'l', 'e', '='] from rfl]
  rw [show ("-Dpackaging=jar" : String).data
    = ['-', 'D', 'p', 'a', 'c', 'k', 'a', 'g', 'i', 'n', 'g', '=', 'j', 'a', 'r'] from rfl]
  simp

theorem dpomNeDclassifier (s : String) : ("-DpomFile=" ++ s) ≠ "-Dclassifier=classes" := by
  apply strNeOfDataNe
  rw [strDataAppend]
  rw [show ("-DpomFile=" : String).data = ['-', 'D', 'p', 'o', 'm', 'F', 'i', 'l', 'e', '='] from rfl]
  rw [show ("-Dclassifier=classes" : String).data
    = ['-', 'D', 'c', 'l', 'a', 's', 's', 'i', 'f', 'i', 'e', 'r', '=', 'c', 'l', 'a', 's', 's', 'e', 's'] from rfl]
  simp

theorem installFileOptionsParams (file pomFile m2Path : String) (utils : Utils) :
    getParametersFromOptions (installFileOptions file pomFile m2Path) utils
      = Except.ok (installRunParams file pomFile m2Path, []) := by
  unfold getParametersFromOptions settingsParams installFileOptions installRunParams
  simp

/-- When parameter construction succeeds, Execute makes exactly one run call
carrying those parameters. -/
theorem Execute_runCalls_ok (options : ExecuteOptions) (runner : Runner) (utils : Utils)
    (ps : List String) (evs : List (String × String))
    (h : getParametersFromOptions options utils = Except.ok (ps, evs)) :
    (Execute options runner utils).runCalls = [(mavenExecutable, ps)] := by
  cases hr : runner.result <;> cases hb : options.ReturnStdout <;>
    simp [Execute, h, hr, evaluateStdOut, hb]

/-- Claim C8: InstallFile rejects an empty pom file before touching the
runner; with an empty file it installs the pom itself; with a non-empty file
it passes the file, adding the jar packaging define exactly when the file name
contains `.jar` and the classes classifier exactly when it contains
`-classes`; and the defines it builds are passed contiguously inside the one
run call. -/
theorem InstallFile_behaviour :
    ∀ (file pomFile m2Path : String) (runner : Runner) (utils : Utils),
      (pomFile = "" →
        (InstallFile file pomFile m2Path runner utils).runCalls = [] ∧
        ∃ msg, (InstallFile file pomFile m2Path runner utils).result = Except.error msg) ∧
      (file = "" →
        installFileDefines file pomFile = ["-Dfile=" ++ pomFile, "-DpomFile=" ++ pomFile]) ∧
      (file ≠ "" →
        ("-Dfile=" ++ file) ∈ installFileDefines file pomFile ∧
        (("-Dpackaging=jar" ∈ installFileDefines file pomFile) ↔
          strContains file ".jar" = true) ∧
        (("-Dclassifier=classes" ∈ installFileDefines file pomFile) ↔
          strContains file "-classes" = true)) ∧
      (pomFile ≠ "" →
        ∃ ps evs pre post,
          getParametersFromOptions (installFileOptions file pomFile m2Path) utils
            = Except.ok (ps, evs) ∧
          (InstallFile file pomFile m2Path runner utils).runCalls = [(mavenExecutable, ps)] ∧
          ps = pre ++ installFileDefines file pomFile ++ post) := by
  intro file pomFile m2Path runner utils
  have hnepc : ("-Dpackaging=jar" : String) ≠ "-Dclassifier=classes" := by decide
  refine ⟨?_, ?_, ?_, ?_⟩
  · intro hp
    subst hp
    exact ⟨rfl, ⟨"pomFile must not be empty", rfl⟩⟩
  · intro hf
    subst hf
    rfl
  · intro hf
    have hlen : file.length > 0 :=
      Nat.pos_of_ne_zero (fun h => hf ((strLengthZeroIff file).mp h))
    unfold installFileDefines
    rw [if_pos hlen]
    cases hj : strContains file ".jar" <;> cases hc : strContains file "-classes" <;>
      simp [hj, hc, dfileNeDpackaging file, dfileNeDclassifier file,
        Ne.symm (dfileNeDpackaging file), Ne.symm (dfileNeDclassifier file),
        dpomNeDpackaging pomFile, dpomNeDclassifier pomFile,
        Ne.symm (dpomNeDpackaging pomFile), Ne.symm (dpomNeDclassifier pomFile),
        hnepc, Ne.symm hnepc]
  · intro hp
    have hlen : ¬(pomFile.length = 0) := fun h => hp ((strLengthZeroIff pomFile).mp h)
    refine ⟨installRunParams file pomFile m2Path, [],
      (if m2Path ≠ "" then ["-Dmaven.repo.local=" ++ m2Path] else [])
        ++ (if pomFile ≠ "" then ["--file", pomFile] else []),
      [slf4jDefine] ++ ["--batch-mode"] ++ ["install:install-file"],
      installFileOptionsParams file pomFile m2Path utils, ?_, ?_⟩
    · unfold InstallFile
      rw [if_neg hlen]
      exact Execute_runCalls_ok _ runner utils _ []
        (installFileOptionsParams file pomFile m2Path utils)
    · unfold installRunParams
      simp [List.append_assoc]

/-- Witness for claim C8 at a concrete classes-jar file name. -/
theorem InstallFile_behaviour_witness :
    ("-Dfile=" ++ "target/app-classes.jar")
        ∈ installFileDefines "target/app-classes.jar" "pom.xml" ∧
      (("-Dpackaging=jar" ∈ installFileDefines "target/app-classes.jar" "pom.xml") ↔
        strContains "target/app-classes.jar" ".jar" = true) ∧
      (("-Dclassifier=classes" ∈ installFileDefines "target/app-classes.jar" "pom.xml") ↔
        strContains "target/app-classes.jar" "-classes" = true) :=
  (InstallFile_behaviour "target/app-classes.jar" "pom.xml" ".m2" okRunner plainUtils).2.2.1
    (by decide)

/-! ### Claim C6: settings file options that are URLs -/

/-- Claim C6: a settings option starting with `http:` or `https:` is
downloaded to the fixed pipeline path unless a file already exists there, and
that fixed path is what reaches the Maven command line; any other option
reaches Maven unchanged with no download. The fixed paths used by
getParametersFromOptions are `.pipeline/mavenGlobalSettings.xml` for the
global and `.pipeline/mavenProjectSettings.xml` for the project settings. -/
theorem settings_download_behaviour :
    ∀ (s : String) (utils : Utils),
      ((strStartsWith s "http:" || strStartsWith s "https:") = true →
        (∀ fixed, utils.fileExists fixed = true →
          downloadSettingsIfURL s fixed utils = Except.ok (fixed, [])) ∧
        (∀ fixed, utils.fileExists fixed = false → utils.downloadFile s fixed = Except.ok () →
          downloadSettingsIfURL s fixed utils = Except.ok (fixed, [(s, fixed)]))) ∧
      ((strStartsWith s "http:" || strStartsWith s "https:") = false →
        ∀ fixed, downloadSettingsIfURL s fixed utils = Except.ok (s, [])) ∧
      (∀ (options : ExecuteOptions) (name : String) (evs : List (String × String)),
        options.GlobalSettingsFile = s → s ≠ "" → options.ProjectSettingsFile = "" →
        downloadSettingsIfURL s ".pipeline/mavenGlobalSettings.xml" utils
          = Except.ok (name, evs) →
        ∃ rest, getParametersFromOptions options utils
          = Except.ok ("--global-settings" :: name :: rest, evs)) ∧
      (∀ (options : ExecuteOptions) (name : String) (evs : List (String × String)),
        options.ProjectSettingsFile = s → s ≠ "" → options.GlobalSettingsFile = "" →
        downloadSettingsIfURL s ".pipeline/mavenProjectSettings.xml" utils
          = Except.ok (name, evs) →
        ∃ rest, getParametersFromOptions options utils
          = Except.ok ("--settings" :: name :: rest, evs)) := by
  intro s utils
  refine ⟨?_, ?_, ?_, ?_⟩
  · intro hurl
    constructor
    · intro fixed hex
      simp [downloadSettingsIfURL, downloadSettingsFromURL, hurl, hex]
    · intro fixed hex hdl
      simp [downloadSettingsIfURL, downloadSettingsFromURL, hurl, hex, hdl]
  · intro hurl fixed
    simp [downloadSettingsIfURL, hurl]
  · intro options name evs hG hne hP hdl
    rw [← hG] at hne hdl
    refine ⟨(if options.M2Path ≠ "" then ["-Dmaven.repo.local=" ++ options.M2Path] else [])
      ++ (if options.PomPath ≠ "" then ["--file", options.PomPath] else [])
      ++ options.Flags ++ options.Defines
      ++ (if !options.LogSuccessfulMavenTransfers then [slf4jDefine] else [])
      ++ ["--batch-mode"] ++ options.Goals, ?_⟩
    unfold getParametersFromOptions settingsParams
    rw [if_neg hne, hdl, if_pos hP]
    simp
  · intro options name evs hP hne hG hdl
    rw [← hP] at hne hdl
    refine ⟨(if options.M2Path ≠ "" then ["-Dmaven.repo.local=" ++ options.M2Path] else [])
      ++ (if options.PomPath ≠ "" then ["--file", options.PomPath] else [])
      ++ options.Flags ++ options.Defines
      ++ (if !options.LogSuccessfulMavenTransfers then [slf4jDefine] else [])
      ++ ["--batch-mode"] ++ options.Goals, ?_⟩
    unfold getParametersFromOptions settingsParams
    rw [if_pos hG, if_neg hne, hdl]
    simp

/-- Witness for claim C6: a URL option is replaced by the fixed path, with no
download when the file already exists, and with one download otherwise. -/
theorem settings_download_behaviour_witness :
    downloadSettingsIfURL "https://host/settings.xml" ".pipeline/mavenGlobalSettings.xml"
        existsUtils
      = Except.ok (".pipeline/mavenGlobalSettings.xml", []) ∧
    downloadSettingsIfURL "https://host/settings.xml" ".pipeline/mavenProjectSettings.xml"
        existsUtils
      = Except.ok (".pipeline/mavenProjectSettings.xml",
          [("https://host/settings.xml", ".pipeline/mavenProjectSettings.xml")]) ∧
    downloadSettingsIfURL "local.xml" ".pipeline/mavenGlobalSettings.xml" existsUtils
      = Except.ok ("local.xml", []) :=
  ⟨((settings_download_behaviour "https://host/settings.xml" existsUtils).1 (by decide)).1
      ".pipeline/mavenGlobalSettings.xml" (by decide),
   ((settings_download_behaviour "https://host/settings.xml" existsUtils).1 (by decide)).2
      ".pipeline/mavenProjectSettings.xml" (by decide) (by decide),
   (settings_download_behaviour "local.xml" existsUtils).2.1 (by decide)
      ".pipeline/mavenGlobalSettings.xml"⟩

/-! ### Success-shape lemmas for the state-threaded operations -/

/-- Every define of the options appears in the constructed parameter list. -/
theorem definesMemParams (o : ExecuteOptions) (u : Utils) (ps : List String)
    (evs : List (String × String))
    (h : getParametersFromOptions o u = Except.ok (ps, evs)) :
    ∀ d ∈ o.Defines, d ∈ ps := by
  intro d hd
  unfold getParametersFromOptions at h
  cases hg : settingsParams o.GlobalSettingsFile "--global-settings"
      ".pipeline/mavenGlobalSettings.xml" u with
  | error e =>
    rw [hg] at h
    exact absurd h (by simp)
  | ok gpr =>
    cases gpr with
    | mk g gEvs =>
      cases hp : settingsParams o.ProjectSettingsFile "--settings"
          ".pipeline/mavenProjectSettings.xml" u with
      | error e =>
        rw [hg, hp] at h
        exact absurd h (by simp)
      | ok ppr =>
        cases ppr with
        | mk p pEvs =>
          rw [hg, hp] at h
          simp only [Except.ok.injEq, Prod.mk.injEq] at h
          rw [← h.1]
          simp [List.mem_append, hd]

/-- A successful `ExecuteS` call made exactly one run with the constructed
parameters, advanced the invocation count by one, kept the working directory,
and (when stdout was to be returned) returned the bytes of the drawn runner. -/
theorem ExecuteS_ok (o : ExecuteOptions) (w : World) (s : Sys) (v : String) (s' : Sys)
    (h : ExecuteS o w s = (Except.ok v, s')) :
    ∃ ps evs,
      getParametersFromOptions o (utilsAt w s.cwd) = Except.ok (ps, evs) ∧
      (w.oracle s.calls).result = Except.ok () ∧
      s' = { cwd := s.cwd, calls := s.calls + 1,
             trace := s.trace ++ [Act.run mavenExecutable ps] } ∧
      (o.ReturnStdout = true → v = (w.oracle s.calls).stdout) := by
  have hres : (Execute o (w.oracle s.calls) (utilsAt w s.cwd)).result = Except.ok v := by
    have h1 := congrArg Prod.fst h
    simpa [ExecuteS] using h1
  have hsnd : ({ s with
      calls := s.calls + (Execute o (w.oracle s.calls) (utilsAt w s.cwd)).runCalls.length,
      trace := s.trace ++ (Execute o (w.oracle s.calls) (utilsAt w s.cwd)).runCalls.map
        (fun c => Act.run c.1 c.2) } : Sys) = s' := by
    have h2 := congrArg Prod.snd h
    simpa [ExecuteS] using h2
  cases hp : getParametersFromOptions o (utilsAt w s.cwd) with
  | error e => simp [Execute, hp] at hres
  | ok pr =>
    cases pr with
    | mk ps evs =>
      cases hr : (w.oracle s.calls).result with
      | error msg => simp [Execute, hp, hr] at hres
      | ok u =>
        refine ⟨ps, evs, rfl, ?_, ?_, ?_⟩
        · cases u
          rfl
        · rw [← hsnd, Execute_runCalls_ok _ _ _ _ _ hp]
          rfl
        · intro hret
          simp [Execute, hp, hr, evaluateStdOut, hret, strEmptyAppend] at hres
          exact hres.symm

/-- A successful `EvaluateS` call: one run with the evaluate parameters
(containing the expression define), invocation count advanced by one, working
directory kept, and the returned value is the stdout of the drawn runner. -/
theorem EvaluateS_ok (options : EvaluateOptions) (expression : String) (w : World) (s : Sys)
    (v : String) (s' : Sys)
    (h : EvaluateS options expression w s = (Except.ok v, s')) :
    ∃ ps evs,
      getParametersFromOptions (evaluateExecuteOptions options expression) (utilsAt w s.cwd)
        = Except.ok (ps, evs) ∧
      ("-Dexpression=" ++ expression) ∈ ps ∧
      s' = { cwd := s.cwd, calls := s.calls + 1,
             trace := s.trace ++ [Act.run mavenExecutable ps] } ∧
      v = (w.oracle s.calls).stdout := by
  unfold EvaluateS at h
  cases hx : ExecuteS (evaluateExecuteOptions options expression) w s with
  | mk value s₁ =>
    rw [hx] at h
    have hval : evaluateResult options.PomPath expression value = Except.ok v :=
      congrArg Prod.fst h
    have hs : s₁ = s' := congrArg Prod.snd h
    cases value with
    | error e => exact absurd hval (by simp [evaluateResult])
    | ok u =>
      have hv : u = v := by
        simp only [evaluateResult] at hval
        by_cases hpref : strStartsWith u nullObjectMessage = true
        · rw [if_pos hpref] at hval
          exact absurd hval (by simp)
        · rw [if_neg hpref] at hval
          exact Except.ok.inj hval
      rw [hv, hs] at hx
      obtain ⟨ps, evs, hparams, _, hs', hstd⟩ := ExecuteS_ok _ _ _ _ _ hx
      exact ⟨ps, evs, hparams,
        definesMemParams _ _ _ _ hparams _ (by simp [evaluateExecuteOptions]),
        hs', hstd rfl⟩

/-- A successful `InstallFileS` call on a non-empty pom file: exactly one run
carrying the install parameters, invocation count advanced by one, working
directory kept. -/
theorem InstallFileS_ok (file pomFile m2Path : String) (w : World) (s : Sys) (s' : Sys)
    (hp : pomFile ≠ "")
    (h : InstallFileS file pomFile m2Path w s = (Except.ok (), s')) :
    s' = { cwd := s.cwd, calls := s.calls + 1,
           trace := s.trace
             ++ [Act.run mavenExecutable (installRunParams file pomFile m2Path)] } := by
  have hlen : ¬(pomFile.length = 0) := fun h0 => hp ((strLengthZeroIff pomFile).mp h0)
  unfold InstallFileS at h
  rw [if_neg hlen] at h
  cases hx : ExecuteS (installFileOptions file pomFile m2Path) w s with
  | mk value s₁ =>
    rw [hx] at h
    have hval : installFileResult value = Except.ok () := congrArg Prod.fst h
    have hs : s₁ = s' := congrArg Prod.snd h
    cases value with
    | error e => exact absurd hval (by simp [installFileResult])
    | ok u =>
      rw [hs] at hx
      obtain ⟨ps, evs, hparams, _, hs', _⟩ := ExecuteS_ok _ _ _ _ _ hx
      rw [installFileOptionsParams] at hparams
      simp only [Except.ok.injEq, Prod.mk.injEq] at hparams
      rw [hs', ← hparams.1]

/-- One conditional artifact install: when the guard holds it is an
`InstallFileS` of the artifact into the local repository, otherwise a no-op. -/
theorem condInstallOk (cond : Bool) (file m2Path : String) (w : World) (s₁ s₂ : Sys)
    (h : (if cond then InstallFileS file "pom.xml" m2Path w s₁ else (Except.ok (), s₁))
      = (Except.ok (), s₂)) :
    s₂ = { cwd := s₁.cwd, calls := s₁.calls + (if cond then 1 else 0),
           trace := s₁.trace ++ (if cond then
             [Act.run mavenExecutable (installRunParams file "pom.xml" m2Path)] else []) } := by
  cases cond with
  | false =>
    simp only [if_false, Bool.false_eq_true, ite_false] at h ⊢
    have hs : s₁ = s₂ := congrArg Prod.snd h
    cases s₂
    cases hs
    simp
  | true =>
    simp only [if_true, ite_true] at h ⊢
    exact InstallFileS_ok file "pom.xml" m2Path w s₁ s₂ (by decide) h

/-- A successful `installJarWarArtifactsS` call: one final-name evaluation run
followed either by a pom-only install (empty final name) or by the jar, war
and classes-jar installs for exactly the artifacts present on disk. -/
theorem installJarWarArtifactsS_ok (options : EvaluateOptions) (w : World) (s : Sys) (s' : Sys)
    (h : installJarWarArtifactsS options w s = (Except.ok (), s')) :
    ∃ fnParams,
      ("-Dexpression=" ++ "project.build.finalName") ∈ fnParams ∧
      s'.cwd = s.cwd ∧
      s'.trace = s.trace ++ Act.run mavenExecutable fnParams ::
        (if (w.oracle s.calls).stdout = "" then
          [Act.run mavenExecutable (installRunParams "" "pom.xml" options.M2Path)]
        else
          (if w.fileExistsAt s.cwd (jarFile (w.oracle s.calls).stdout) then
            [Act.run mavenExecutable
              (installRunParams (jarFile (w.oracle s.calls).stdout) "pom.xml" options.M2Path)]
          else [])
          ++ (if w.fileExistsAt s.cwd (warFile (w.oracle s.calls).stdout) then
            [Act.run mavenExecutable
              (installRunParams (warFile (w.oracle s.calls).stdout) "pom.xml" options.M2Path)]
          else [])
          ++ (if w.fileExistsAt s.cwd (classesJarFile (w.oracle s.calls).stdout) then
            [Act.run mavenExecutable
              (installRunParams (classesJarFile (w.oracle s.calls).stdout) "pom.xml"
                options.M2Path)]
          else [])) := by
  unfold installJarWarArtifactsS at h
  cases hev : EvaluateS options "project.build.finalName" w s with
  | mk fnRes s₁ =>
    rw [hev] at h
    cases fnRes with
    | error e => exact absurd h (by simp)
    | ok finalName =>
      obtain ⟨ps, evs, hparams, hmem, hs₁, hfn⟩ := EvaluateS_ok _ _ _ _ _ _ hev
      dsimp only at h
      by_cases hempty : finalName = ""
      · rw [if_pos hempty] at h
        have hs' := InstallFileS_ok "" "pom.xml" options.M2Path w s₁ s' (by decide) h
        refine ⟨ps, hmem, ?_, ?_⟩
        · rw [hs', hs₁]
        · rw [hs', hs₁, ← hfn, if_pos hempty]
          simp
      · rw [if_neg hempty] at h
        cases hx2 : (if w.fileExistsAt s₁.cwd (jarFile finalName) then
            InstallFileS (jarFile finalName) "pom.xml" options.M2Path w s₁
          else (Except.ok (), s₁)) with
        | mk r₂ s₂ =>
          rw [hx2] at h
          cases r₂ with
          | error e => exact absurd h (by simp)
          | ok u₂ =>
            cases u₂
            dsimp only at h
            have hs₂ := condInstallOk _ _ _ w s₁ s₂ hx2
            cases hx3 : (if w.fileExistsAt s₁.cwd (warFile finalName) then
                InstallFileS (warFile finalName) "pom.xml" options.M2Path w s₂
              else (Except.ok (), s₂)) with
            | mk r₃ s₃ =>
              rw [hx3] at h
              cases r₃ with
              | error e => exact absurd h (by simp)
              | ok u₃ =>
                cases u₃
                dsimp only at h
                have hs₃ := condInstallOk _ _ _ w s₂ s₃ hx3
                have hs' := condInstallOk _ _ _ w s₃ s' h
                refine ⟨ps, hmem, ?_, ?_⟩
                · rw [hs', hs₃, hs₂, hs₁]
                · rw [hs', hs₃, hs₂, hs₁, ← hfn, if_neg hempty]
                  simp [List.append_assoc]

/-- A successful module iteration: change into the pom directory, one
packaging-evaluation run, then either a pom-only install (packaging `pom`) or
a final-name evaluation followed by the conditional artifact installs, then
change back to the remembered directory. -/
theorem processModule_ok (options : EvaluateOptions) (oldWd pomFile : String)
    (w : World) (s : Sys) (s' : Sys)
    (h : processModule options oldWd pomFile w s = (Except.ok (), s')) :
    ∃ pkgParams branchTrace,
      ("-Dexpression=" ++ "project.packaging") ∈ pkgParams ∧
      s'.cwd = resolvePath (resolvePath s.cwd (pathDir pomFile)) oldWd ∧
      s'.trace = s.trace ++ Act.chdir (pathDir pomFile) ::
        Act.run mavenExecutable pkgParams :: (branchTrace ++ [Act.chdir oldWd]) ∧
      ((w.oracle s.calls).stdout = "pom" →
        branchTrace = [Act.run mavenExecutable (installRunParams "" "pom.xml" options.M2Path)]) ∧
      ((w.oracle s.calls).stdout ≠ "pom" →
        ∃ fnParams,
          ("-Dexpression=" ++ "project.build.finalName") ∈ fnParams ∧
          branchTrace = Act.run mavenExecutable fnParams ::
            (if (w.oracle (s.calls + 1)).stdout = "" then
              [Act.run mavenExecutable (installRunParams "" "pom.xml" options.M2Path)]
            else
              (if w.fileExistsAt (resolvePath s.cwd (pathDir pomFile))
                  (jarFile (w.oracle (s.calls + 1)).stdout) then
                [Act.run mavenExecutable (installRunParams
                  (jarFile (w.oracle (s.calls + 1)).stdout) "pom.xml" options.M2Path)]
              else [])
              ++ (if w.fileExistsAt (resolvePath s.cwd (pathDir pomFile))
                  (warFile (w.oracle (s.calls + 1)).stdout) then
                [Act.run mavenExecutable (installRunParams
                  (warFile (w.oracle (s.calls + 1)).stdout) "pom.xml" options.M2Path)]
              else [])
              ++ (if w.fileExistsAt (resolvePath s.cwd (pathDir pomFile))
                  (classesJarFile (w.oracle (s.calls + 1)).stdout) then
                [Act.run mavenExecutable (installRunParams
                  (classesJarFile (w.oracle (s.calls + 1)).stdout) "pom.xml" options.M2Path)]
              else []))) := by
  unfold processModule at h
  cases hch : w.chdirErr s.cwd (pathDir pomFile) with
  | some e =>
    rw [hch] at h
    exact absurd h (by simp)
  | none =>
    rw [hch] at h
    cases hev : EvaluateS options "project.packaging" w
        { s with cwd := resolvePath s.cwd (pathDir pomFile),
                 trace := s.trace ++ [Act.chdir (pathDir pomFile)] } with
    | mk pkgRes s₂ =>
      rw [hev] at h
      cases pkgRes with
      | error e => exact absurd h (by simp)
      | ok packaging =>
        obtain ⟨ps, evs, hparams, hmem, hs₂, hpkg⟩ := EvaluateS_ok _ _ _ _ _ _ hev
        dsimp only at h hs₂ hpkg
        cases hbr : (if packaging = "pom" then InstallFileS "" "pom.xml" options.M2Path w s₂
            else installJarWarArtifactsS options w s₂) with
        | mk insRes s₃ =>
          rw [hbr] at h
          cases insRes with
          | error e => exact absurd h (by simp)
          | ok u =>
            cases u
            dsimp only at h
            cases hch2 : w.chdirErr s₃.cwd oldWd with
            | some e =>
              rw [hch2] at h
              exact absurd h (by simp)
            | none =>
              rw [hch2] at h
              have hs' :
                  ({ s₃ with
                     cwd := resolvePath s₃.cwd oldWd
                     trace := s₃.trace ++ [Act.chdir oldWd] } : Sys) = s' :=
                congrArg Prod.snd h
              by_cases hpom : packaging = "pom"
              · rw [if_pos hpom] at hbr
                have hs₃ := InstallFileS_ok "" "pom.xml" options.M2Path w s₂ s₃ (by decide) hbr
                refine ⟨ps, [Act.run mavenExecutable (installRunParams "" "pom.xml"
                  options.M2Path)], hmem, ?_, ?_, ?_, ?_⟩
                · rw [← hs', hs₃, hs₂]
                · rw [← hs', hs₃, hs₂]
                  simp [List.append_assoc]
                · intro _
                  rfl
                · intro hne
                  rw [← hpkg] at hne
                  exact absurd hpom hne
              · rw [if_neg hpom] at hbr
                obtain ⟨fnParams, hfmem, hcwd3, htr3⟩ :=
                  installJarWarArtifactsS_ok options w s₂ s₃ hbr
                rw [hs₂] at hcwd3 htr3
                dsimp only at hcwd3 htr3
                refine ⟨ps, Act.run mavenExecutable fnParams ::
                  (if (w.oracle (s.calls + 1)).stdout = "" then
                    [Act.run mavenExecutable (installRunParams "" "pom.xml" options.M2Path)]
                  else
                    (if w.fileExistsAt (resolvePath s.cwd (pathDir pomFile))
                        (jarFile (w.oracle (s.calls + 1)).stdout) then
                      [Act.run mavenExecutable (installRunParams
                        (jarFile (w.oracle (s.calls + 1)).stdout) "pom.xml" options.M2Path)]
                    else [])
                    ++ (if w.fileExistsAt (resolvePath s.cwd (pathDir pomFile))
                        (warFile (w.oracle (s.calls + 1)).stdout) then
                      [Act.run mavenExecutable (installRunParams
                        (warFile (w.oracle (s.calls + 1)).stdout) "pom.xml" options.M2Path)]
                    else [])
                    ++ (if w.fileExistsAt (resolvePath s.cwd (pathDir pomFile))
                        (classesJarFile (w.oracle (s.calls + 1)).stdout) then
                      [Act.run mavenExecutable (installRunParams
                        (classesJarFile (w.oracle (s.calls + 1)).stdout) "pom.xml"
                        options.M2Path)]
                    else [])), hmem, ?_, ?_, ?_, ?_⟩
                · rw [← hs', hcwd3]
                · rw [← hs', htr3]
                  simp [List.append_assoc]
                · intro hstd
                  rw [← hpkg] at hstd
                  exact absurd hstd hpom
                · intro _
                  exact ⟨fnParams, hfmem, rfl⟩

/-! ### Claim C9: the working directory is restored -/

/-- `ExecuteS` never changes the working directory. -/
theorem ExecuteS_cwd (o : ExecuteOptions) (w : World) (s : Sys) :
    (ExecuteS o w s).2.cwd = s.cwd := rfl

/-- `flattenPomS` never changes the working directory. -/
theorem flattenPomS_cwd (w : World) (s : Sys) : (flattenPomS w s).2.cwd = s.cwd := by
  unfold flattenPomS
  cases hx : ExecuteS flattenPomOptions w s with
  | mk r sx =>
    have hc : (ExecuteS flattenPomOptions w s).2 = sx := congrArg Prod.snd hx
    cases r <;> dsimp only <;> rw [← hc] <;> exact ExecuteS_cwd _ _ _

/-- After a successful module iteration against a rooted remembered
directory, the working directory is that remembered directory, cleaned. -/
theorem processModule_ok_cwd (options : EvaluateOptions) (oldWd pomFile : String)
    (w : World) (s : Sys) (s' : Sys)
    (hroot : strStartsWith oldWd "/" = true)
    (h : processModule options oldWd pomFile w s = (Except.ok (), s')) :
    s'.cwd = pathClean oldWd := by
  obtain ⟨_, _, _, hcwd, _⟩ := processModule_ok options oldWd pomFile w s s' h
  rw [hcwd]
  unfold resolvePath
  rw [if_pos hroot]

/-- Through a successful module loop against a rooted remembered directory,
the working directory either never moved or ends at the cleaned remembered
directory. -/
theorem installLoop_ok_cwd (pomFiles : List String) :
    ∀ (options : EvaluateOptions) (oldWd : String) (w : World) (s : Sys) (s' : Sys),
      strStartsWith oldWd "/" = true →
      installLoop options oldWd pomFiles w s = (Except.ok (), s') →
      s'.cwd = s.cwd ∨ s'.cwd = pathClean oldWd := by
  induction pomFiles with
  | nil =>
    intro options oldWd w s s' hroot h
    unfold installLoop at h
    have hs : s = s' := congrArg Prod.snd h
    rw [← hs]
    exact Or.inl rfl
  | cons pf rest ih =>
    intro options oldWd w s s' hroot h
    unfold installLoop at h
    cases hpm : processModule options oldWd pf w s with
    | mk r s₁ =>
      rw [hpm] at h
      cases r with
      | error e => exact absurd h (by simp)
      | ok u =>
        cases u
        dsimp only at h
        have h1 := processModule_ok_cwd options oldWd pf w s s₁ hroot hpm
        rcases ih options oldWd w s₁ s' hroot h with h2 | h2
        · exact Or.inr (h2.trans h1)
        · exact Or.inr h2

/-- Claim C9: whenever doInstallMavenArtifacts returns without error, the
process working directory at return equals the directory that was current at
entry. The hypotheses say that the entry directory is, as `os.Getwd`
guarantees, an absolute and already-clean path. -/
theorem doInstall_restores_cwd :
    ∀ (options : EvaluateOptions) (w : World) (s : Sys) (s' : Sys),
      strStartsWith s.cwd "/" = true →
      pathClean s.cwd = s.cwd →
      doInstallMavenArtifacts options w s = (Except.ok (), s') →
      s'.cwd = s.cwd := by
  intro options w s s' hroot hclean h
  unfold doInstallMavenArtifacts at h
  cases hfl : flattenPomS w s with
  | mk fr s₁ =>
    rw [hfl] at h
    cases fr with
    | error e => exact absurd h (by simp)
    | ok u =>
      cases u
      dsimp only at h
      have hcwd1 : s₁.cwd = s.cwd := by
        have hc : (flattenPomS w s).2 = s₁ := congrArg Prod.snd hfl
        rw [← hc]
        exact flattenPomS_cwd w s
      cases hg : w.pomGlob with
      | error e =>
        rw [hg] at h
        exact absurd h (by simp)
      | ok pomFiles =>
        rw [hg] at h
        dsimp only at h
        cases hw : w.getwdErr with
        | some e =>
          rw [hw] at h
          exact absurd h (by simp)
        | none =>
          rw [hw] at h
          dsimp only at h
          have hroot1 : strStartsWith s₁.cwd "/" = true := by
            rw [hcwd1]
            exact hroot
          rcases installLoop_ok_cwd pomFiles _ s₁.cwd w s₁ s' hroot1 h with h2 | h2
          · rw [h2, hcwd1]
          · rw [h2, hcwd1, hclean]

/-- Witness for claim C9 at a concrete environment. -/
theorem doInstall_restores_cwd_witness :
    ((doInstallMavenArtifacts {} wdWorld startSys).2).cwd = "/prj" := by
  have h1 : doInstallMavenArtifacts {} wdWorld startSys
      = (Except.ok (), (doInstallMavenArtifacts {} wdWorld startSys).2) := by decide
  exact doInstall_restores_cwd {} wdWorld startSys _ (by decide) (by decide) h1

/-! ### Claim C2: the multi-module install workflow -/

/-- Claim C2 (amended): after flattening, doInstallMavenArtifacts processes
the glob-discovered modules in order; each successful module iteration changes
into the pom directory, evaluates project.packaging, installs only the pom
when the packaging is pom, and otherwise evaluates project.build.finalName
and, when that is non-empty, installs each of the jar, war and classes-jar
artifacts exactly when the corresponding file exists, while an empty final
name leads to a pom-only install; the iteration ends by changing back to the
remembered directory. -/
theorem doInstall_module_behaviour :
    (∀ (options : EvaluateOptions) (w : World) (s : Sys) (pomFiles : List String) (s₁ : Sys),
      flattenPomS w s = (Except.ok (), s₁) →
      w.pomGlob = Except.ok pomFiles →
      w.getwdErr = none →
      doInstallMavenArtifacts options w s
        = installLoop { options with PomPath := "pom.xml" } s₁.cwd pomFiles w s₁) ∧
    (∀ (options : EvaluateOptions) (oldWd : String) (w : World) (s : Sys)
      (pomFile : String) (rest : List String),
      installLoop options oldWd (pomFile :: rest) w s
        = match processModule options oldWd pomFile w s with
          | (Except.error e, s₁) => (Except.error e, s₁)
          | (Except.ok _, s₁) => installLoop options oldWd rest w s₁) ∧
    (∀ (options : EvaluateOptions) (oldWd pomFile : String) (w : World) (s : Sys) (s' : Sys),
      processModule options oldWd pomFile w s = (Except.ok (), s') →
      ∃ pkgParams branchTrace,
        ("-Dexpression=" ++ "project.packaging") ∈ pkgParams ∧
        s'.cwd = resolvePath (resolvePath s.cwd (pathDir pomFile)) oldWd ∧
        s'.trace = s.trace ++ Act.chdir (pathDir pomFile) ::
          Act.run mavenExecutable pkgParams :: (branchTrace ++ [Act.chdir oldWd]) ∧
        ((w.oracle s.calls).stdout = "pom" →
          branchTrace
            = [Act.run mavenExecutable (installRunParams "" "pom.xml" options.M2Path)]) ∧
        ((w.oracle s.calls).stdout ≠ "pom" →
          ∃ fnParams,
            ("-Dexpression=" ++ "project.build.finalName") ∈ fnParams ∧
            branchTrace = Act.run mavenExecutable fnParams ::
              (if (w.oracle (s.calls + 1)).stdout = "" then
                [Act.run mavenExecutable (installRunParams "" "pom.xml" options.M2Path)]
              else
                (if w.fileExistsAt (resolvePath s.cwd (pathDir pomFile))
                    (jarFile (w.oracle (s.calls + 1)).stdout) then
                  [Act.run mavenExecutable (installRunParams
                    (jarFile (w.oracle (s.calls + 1)).stdout) "pom.xml" options.M2Path)]
                else [])
                ++ (if w.fileExistsAt (resolvePath s.cwd (pathDir pomFile))
                    (warFile (w.oracle (s.calls + 1)).stdout) then
                  [Act.run mavenExecutable (installRunParams
                    (warFile (w.oracle (s.calls + 1)).stdout) "pom.xml" options.M2Path)]
                else [])
                ++ (if w.fileExistsAt (resolvePath s.cwd (pathDir pomFile))
                    (classesJarFile (w.oracle (s.calls + 1)).stdout) then
                  [Act.run mavenExecutable (installRunParams
                    (classesJarFile (w.oracle (s.calls + 1)).stdout) "pom.xml"
                    options.M2Path)]
                else [])))) := by
  refine ⟨?_, ?_, ?_⟩
  · intro options w s pomFiles s₁ hfl hg hw
    unfold doInstallMavenArtifacts
    rw [hfl]
    dsimp only
    rw [hg]
    dsimp only
    rw [hw]
  · intro options oldWd w s pomFile rest
    rfl
  · intro options oldWd pomFile w s s' h
    exact processModule_ok options oldWd pomFile w s s' h

/-- Counterexample to claim C2 as stated: in `cexWorld` the workflow
succeeds, the module packaging is `jar` (not `pom`), the jar artifact
`target/.jar` for the evaluated final name exists on disk, and yet no runner
invocation in the whole trace carries the define that would install it — the
code installs only the pom because the final name is empty. -/
theorem doInstall_module_behaviour_counterexample :
    (doInstallMavenArtifacts {} cexWorld startSys).1 = Except.ok () ∧
    (cexWorld.oracle 1).stdout = "jar" ∧
    cexWorld.fileExistsAt (resolvePath "/prj" (pathDir "pom.xml"))
      (jarFile (cexWorld.oracle 2).stdout) = true ∧
    ((doInstallMavenArtifacts {} cexWorld startSys).2.trace.all (fun a =>
      match a with
      | Act.run _ ps => !(ps.contains ("-Dfile=" ++ jarFile (cexWorld.oracle 2).stdout))
      | _ => true)) = true := by
  decide

/-- Witness for claim C2 at a concrete pom-packaged module. -/
theorem doInstall_module_behaviour_witness :
    ∃ pkgParams branchTrace,
      ("-Dexpression=" ++ "project.packaging") ∈ pkgParams ∧
      ((processModule {} "/prj" "pom.xml" pomWorld startSys).2).cwd
        = resolvePath (resolvePath startSys.cwd (pathDir "pom.xml")) "/prj" ∧
      ((processModule {} "/prj" "pom.xml" pomWorld startSys).2).trace
        = startSys.trace ++ Act.chdir (pathDir "pom.xml") ::
          Act.run mavenExecutable pkgParams :: (branchTrace ++ [Act.chdir "/prj"]) ∧
      ((pomWorld.oracle startSys.calls).stdout = "pom" →
        branchTrace = [Act.run mavenExecutable
          (installRunParams "" "pom.xml" ({} : EvaluateOptions).M2Path)]) ∧
      ((pomWorld.oracle startSys.calls).stdout ≠ "pom" →
        ∃ fnParams,
          ("-Dexpression=" ++ "project.build.finalName") ∈ fnParams ∧
          branchTrace = Act.run mavenExecutable fnParams ::
            (if (pomWorld.oracle (startSys.calls + 1)).stdout = "" then
              [Act.run mavenExecutable (installRunParams "" "pom.xml"
                ({} : EvaluateOptions).M2Path)]
            else
              (if pomWorld.fileExistsAt (resolvePath startSys.cwd (pathDir "pom.xml"))
                  (jarFile (pomWorld.oracle (startSys.calls + 1)).stdout) then
                [Act.run mavenExecutable (installRunParams
                  (jarFile (pomWorld.oracle (startSys.calls + 1)).stdout) "pom.xml"
                  ({} : EvaluateOptions).M2Path)]
              else [])
              ++ (if pomWorld.fileExistsAt (resolvePath startSys.cwd (pathDir "pom.xml"))
                  (warFile (pomWorld.oracle (startSys.calls + 1)).stdout) then
                [Act.run mavenExecutable (installRunParams
                  (warFile (pomWorld.oracle (startSys.calls + 1)).stdout) "pom.xml"
                  ({} : EvaluateOptions).M2Path)]
              else [])
              ++ (if pomWorld.fileExistsAt (resolvePath startSys.cwd (pathDir "pom.xml"))
                  (classesJarFile (pomWorld.oracle (startSys.calls + 1)).stdout) then
                [Act.run mavenExecutable (installRunParams
                  (classesJarFile (pomWorld.oracle (startSys.calls + 1)).stdout) "pom.xml"
                  ({} : EvaluateOptions).M2Path)]
              else []))) := by
  have h1 : processModule {} "/prj" "pom.xml" pomWorld startSys
      = (Except.ok (), (processModule {} "/prj" "pom.xml" pomWorld startSys).2) := by
    decide
  exact doInstall_module_behaviour.2.2 {} "/prj" "pom.xml" pomWorld startSys _ h1
